import Mathlib

/-!
Shallow embedding of `src/Optional.h`: a generic optional container `Opt<T>`
holding a raw storage slot (`union { T value; }`) and a presence flag
(`bool hasValue = false`).  Machine state is modelled by `Opt α`; each C++
member function becomes a Lean function on that state.  Side effects on the
contained type T (constructor calls, assignment-operator calls, destructor
calls) are counted explicitly by `Eff`, so that claims about "exactly one
assignment, no destroy-then-reconstruct" are statable.

Exception behaviour is modelled in a second, fallible layer where T's
constructor / assignment operator are passed in as `Except`-valued functions;
`COutcome` distinguishes normal return, a propagated exception, and
`std::terminate` (reached when an exception escapes inside a `noexcept`
member, as in the move constructor `Opt(Opt&&) noexcept`).
-/

set_option autoImplicit false

universe u

/-- The raw storage slot `union { T value; }`: either uninitialized/destroyed
bytes (`raw`) or exactly one live T instance (`live v`). -/
inductive Slot (α : Type u) where
  | raw : Slot α
  | live : α → Slot α
deriving DecidableEq, Repr

namespace Slot

/-- Whether the slot holds a live instance. -/
def isLive {α : Type u} : Slot α → Bool
  | .raw => false
  | .live _ => true

/-- Reading the union member `value`.  Reading a `raw` slot is undefined
behaviour in the source; the model returns an arbitrary default there. -/
def read {α : Type u} [Inhabited α] : Slot α → α
  | .raw => Inhabited.default
  | .live v => v

@[simp] theorem isLive_raw {α : Type u} : (Slot.raw : Slot α).isLive = false := rfl

@[simp] theorem isLive_live {α : Type u} (v : α) : (Slot.live v).isLive = true := rfl

@[simp] theorem read_live {α : Type u} [Inhabited α] (v : α) :
    (Slot.live v).read = v := rfl

end Slot

/-- The container state of `Opt<T>`: the union storage `value` and the flag
`hasValue` (`bool hasValue = false;`). -/
structure Opt (α : Type u) where
  value : Slot α
  hasValue : Bool
deriving DecidableEq, Repr

/-- Counts of side effects on the contained type T during one container
operation: T-constructor calls, T-assignment-operator calls, T-destructor
calls. -/
structure Eff where
  constructs : Nat
  assigns : Nat
  destroys : Nat
deriving DecidableEq, Repr

namespace Eff

/-- No side effect on T. -/
def none : Eff := ⟨0, 0, 0⟩

/-- Exactly one T construction. -/
def oneConstruct : Eff := ⟨1, 0, 0⟩

/-- Exactly one T assignment. -/
def oneAssign : Eff := ⟨0, 1, 0⟩

/-- Exactly one T destruction. -/
def oneDestroy : Eff := ⟨0, 0, 1⟩

/-- Componentwise sum of effect counts. -/
def add (a b : Eff) : Eff := ⟨a.constructs + b.constructs, a.assigns + b.assigns, a.destroys + b.destroys⟩

end Eff

namespace Opt

variable {α : Type u}

/-- Invariant I1: the presence flag is true iff the storage slot holds exactly
one live T instance. -/
def Inv (o : Opt α) : Prop := o.hasValue = o.value.isLive

instance (o : Opt α) : Decidable o.Inv := by unfold Inv; infer_instance

/-- `Opt() {}` — default construction: flag initialized to `false` by the
member initializer, union storage left raw. -/
def mkDefault : Opt α := ⟨.raw, false⟩

/-- `Opt(NullOpt)` — construction from the absent marker `nopt`: body empty,
flag stays `false`, storage raw. -/
def mkNull : Opt α := ⟨.raw, false⟩

/-- `Opt(const Opt& other) : hasValue(other.hasValue)
    { if (hasValue) new(&value) T(other.value); }` — copy construction.
Returns the new container and the T effects (one copy construction when the
source is present). -/
def copyCtor [Inhabited α] (other : Opt α) : Opt α × Eff :=
  if other.hasValue then
    (⟨.live other.value.read, other.hasValue⟩, Eff.oneConstruct)
  else
    (⟨.raw, other.hasValue⟩, Eff.none)

/-- `Destroy()` — `if (hasValue) { value.~T(); hasValue = false; }`.
Returns the updated container and the T effects (one destructor call when
present, none otherwise). -/
def Destroy (o : Opt α) : Opt α × Eff :=
  if o.hasValue then (⟨.raw, false⟩, Eff.oneDestroy) else (o, Eff.none)

/-- `Opt(Opt&& other) noexcept : hasValue(other.hasValue)
    { if (hasValue) { new(&value) T(std::move(other.value)); other.Destroy(); } }`
— move construction.  Returns (destination, updated source, effects on the
destination slot, effects on the source slot).  Moving out of the source's T
leaves it in a valid moved-from state (still live, modelled by its old value)
which `other.Destroy()` then destroys. -/
def moveCtor [Inhabited α] (other : Opt α) : Opt α × Opt α × Eff × Eff :=
  if other.hasValue then
    (⟨.live other.value.read, other.hasValue⟩, (Destroy other).1,
      Eff.oneConstruct, (Destroy other).2)
  else
    (⟨.raw, other.hasValue⟩, other, Eff.none, Eff.none)

/-- `Opt(const T& val) : hasValue(true) { new(&value) T(val); }` and
`Opt(T&& val) : hasValue(true) { new(&value) T(std::move(val)); }` —
construction from a value: always present, one T construction. -/
def fromVal (v : α) : Opt α × Eff := (⟨.live v, true⟩, Eff.oneConstruct)

/-- `explicit operator bool() const { return hasValue; }` — presence query. -/
def toBool (o : Opt α) : Bool := o.hasValue

/-- `operator*() & -> T& { assert(hasValue); return value; }` — mutable
access (also the `const&`, `&&`, `const&&` overloads return the same slot).
The state is not modified; precondition `hasValue` is assert-checked only. -/
def star [Inhabited α] (o : Opt α) : α := o.value.read

/-- `operator->() -> T* { return &value; }` — member-access forwarding;
returns the slot contents, unchecked. -/
def arrow [Inhabited α] (o : Opt α) : α := o.value.read

/-- `operator=(U&& val)` — value assignment:
`if (hasValue) { value = std::forward<U>(val); }
 else { new(&value) T(std::forward<U>(val)); hasValue = true; }`.
In-place T assignment when present, placement-new construction then flag set
when absent. -/
def assignVal (o : Opt α) (v : α) : Opt α × Eff :=
  if o.hasValue then
    (⟨.live v, true⟩, Eff.oneAssign)
  else
    (⟨.live v, true⟩, Eff.oneConstruct)

/-- `operator=(const Opt& other)` — copy assignment:
`if (other) { if (hasValue) value = other.value;
              else { new(&value) T(other.value); hasValue = true; } }
 else Destroy();`. -/
def assignCopy [Inhabited α] (o other : Opt α) : Opt α × Eff :=
  if other.hasValue then
    if o.hasValue then
      (⟨.live other.value.read, true⟩, Eff.oneAssign)
    else
      (⟨.live other.value.read, true⟩, Eff.oneConstruct)
  else
    Destroy o

/-- `operator=(Opt&& other)` — move assignment:
`if (other) { if (hasValue) value = std::move(other.value);
              else { new(&value) T(std::move(other.value)); hasValue = true; }
              other.Destroy(); }
 else Destroy();`.
Returns (this, other, effects on this's slot, effects on other's slot). -/
def assignMove [Inhabited α] (o other : Opt α) : Opt α × Opt α × Eff × Eff :=
  if other.hasValue then
    if o.hasValue then
      (⟨.live other.value.read, true⟩, (Destroy other).1, Eff.oneAssign, (Destroy other).2)
    else
      (⟨.live other.value.read, true⟩, (Destroy other).1, Eff.oneConstruct, (Destroy other).2)
  else
    ((Destroy o).1, other, (Destroy o).2, Eff.none)

/-- `operator=(NullOpt) { Destroy(); return *this; }` — absent-marker
assignment. -/
def assignNull (o : Opt α) : Opt α × Eff := Destroy o

/-- `operator=(std::initializer_list<std::nullptr_t>) { Destroy(); return *this; }`
— empty brace-literal assignment (`o = {}`), a syntactic synonym for the
absent marker. -/
def assignEmptyList (o : Opt α) : Opt α × Eff := Destroy o

/-- `~Opt() { Destroy(); }` — destruction of the container. -/
def dtor (o : Opt α) : Opt α × Eff := Destroy o

/-- Total T-destructor calls over `n` consecutive `operator=(NullOpt)`
applications. -/
def iterNull (o : Opt α) : Nat → Opt α × Nat
  | 0 => (o, 0)
  | n + 1 =>
    let (o1, e1) := assignNull o
    let (o2, d) := iterNull o1 n
    (o2, e1.destroys + d)

end Opt

/-! ### World model: arbitrary sequences of container operations

A world is a list of container states; operations address containers by index
(the client holds several `Opt<T>` objects, as in `OptionalTest`).  Each step
applies the corresponding member function from above.  Out-of-range indices
act on no container (`List.set` is a no-op there).  The move forms write the
destination first and the source second, in source order
(`new(&value) T(std::move(other.value)); ... other.Destroy();`), so
self-move-assignment `x = std::move(x)` is reproduced faithfully. -/

/-- One operation of the container interface, addressing containers in a
world by index. -/
inductive WOp (α : Type u) where
  | newDefault : WOp α
  | newNull : WOp α
  | newFromVal (v : α) : WOp α
  | newCopy (j : Nat) : WOp α
  | newMove (j : Nat) : WOp α
  | assignVal (i : Nat) (v : α) : WOp α
  | assignCopy (i j : Nat) : WOp α
  | assignMove (i j : Nat) : WOp α
  | assignNull (i : Nat) : WOp α
  | assignEmptyList (i : Nat) : WOp α
  | destruct (i : Nat) : WOp α
  | queryBool (i : Nat) : WOp α
  | readStar (i : Nat) : WOp α
  | readArrow (i : Nat) : WOp α
deriving Repr

/-- A world: the container objects currently in scope. -/
abbrev World (α : Type u) : Type u := List (Opt α)

/-- Read the container at index `i`; out of range yields an empty dummy. -/
def World.getC {α : Type u} (w : World α) (i : Nat) : Opt α :=
  List.getD w i Opt.mkDefault

/-- Replace the container at index `i` (no-op when out of range). -/
def World.setC {α : Type u} (w : World α) (i : Nat) (o : Opt α) : World α :=
  List.set w i o

/-- One step of the world: apply the member function the operation names.
Query/read operations do not change state; `destruct` runs `~Opt()` =
`Destroy()` on the addressed container. -/
def World.step {α : Type u} [Inhabited α] (w : World α) : WOp α → World α
  | .newDefault => w ++ [Opt.mkDefault]
  | .newNull => w ++ [Opt.mkNull]
  | .newFromVal v => w ++ [(Opt.fromVal v).1]
  | .newCopy j => w ++ [(Opt.copyCtor (w.getC j)).1]
  | .newMove j =>
    let r := Opt.moveCtor (w.getC j)
    (w.setC j r.2.1) ++ [r.1]
  | .assignVal i v => w.setC i (Opt.assignVal (w.getC i) v).1
  | .assignCopy i j => w.setC i (Opt.assignCopy (w.getC i) (w.getC j)).1
  | .assignMove i j =>
    let r := Opt.assignMove (w.getC i) (w.getC j)
    (w.setC i r.1).setC j r.2.1
  | .assignNull i => w.setC i (Opt.assignNull (w.getC i)).1
  | .assignEmptyList i => w.setC i (Opt.assignEmptyList (w.getC i)).1
  | .destruct i => w.setC i (Opt.dtor (w.getC i)).1
  | .queryBool _ => w
  | .readStar _ => w
  | .readArrow _ => w

/-- Run a sequence of operations. -/
def World.run {α : Type u} [Inhabited α] (w : World α) (ops : List (WOp α)) : World α :=
  ops.foldl World.step w

/-! ### Fallible layer: T operations that may raise

T's constructor and assignment operator are passed in as `Except`-valued
functions; the container operations below report how a failure surfaces. -/

/-- Outcome of a container operation when T's operations may fail:
normal return, a propagated exception, or `std::terminate` (an exception
escaping a `noexcept` member). -/
inductive COutcome (ε : Type) (β : Type u) where
  | ok (a : β) : COutcome ε β
  | thrown (e : ε) : COutcome ε β
  | terminated : COutcome ε β
deriving Repr, DecidableEq

namespace Opt

variable {α : Type u} {ε : Type}

/-- Fallible `Opt(const T&)` / `Opt(T&&)`: `hasValue(true)` then
`new(&value) T(val)`.  If T's constructor throws, the `Opt` object never
comes into existence (no container state results) and the exception
propagates to the caller unchanged. -/
def fromValE (cons : α → Except ε α) (v : α) : COutcome ε (Opt α) :=
  match cons v with
  | .ok a => .ok ⟨.live a, true⟩
  | .error e => .thrown e

/-- Fallible `Opt(const Opt& other)`: `hasValue(other.hasValue)` then
`if (hasValue) new(&value) T(other.value)`.  A throwing T copy constructor
aborts the `Opt` construction; no container state results and the exception
propagates unchanged. -/
def copyCtorE [Inhabited α] (cons : α → Except ε α) (other : Opt α) :
    COutcome ε (Opt α) :=
  if other.hasValue then
    match cons other.value.read with
    | .ok a => .ok ⟨.live a, other.hasValue⟩
    | .error e => .thrown e
  else
    .ok ⟨.raw, other.hasValue⟩

/-- Fallible `Opt(Opt&& other) noexcept`: the member is declared `noexcept`,
so an exception from T's move constructor does not propagate — the program
terminates (`std::terminate`). -/
def moveCtorE [Inhabited α] (mcons : α → Except ε α) (other : Opt α) :
    COutcome ε (Opt α × Opt α) :=
  if other.hasValue then
    match mcons other.value.read with
    | .ok a => .ok (⟨.live a, other.hasValue⟩, (Destroy other).1)
    | .error _ => .terminated
  else
    .ok (⟨.raw, other.hasValue⟩, other)

/-- Fallible `operator=(U&&)`: on the present path `value = forward(val)`
(a throwing T assignment leaves the T in a valid, still-live state and the
exception propagates); on the absent path `new(&value) T(forward(val))`
runs before `hasValue = true`, so a throwing construction leaves the
container absent and untouched.  Returns the resulting container state, the
surfaced outcome, and the attempted T-operation counts. -/
def assignValE [Inhabited α] (cons : α → Except ε α) (asn : α → α → Except ε α)
    (o : Opt α) (v : α) : Opt α × COutcome ε Unit × Eff :=
  if o.hasValue then
    match asn o.value.read v with
    | .ok a => (⟨.live a, true⟩, .ok (), Eff.oneAssign)
    | .error e => (⟨.live o.value.read, o.hasValue⟩, .thrown e, Eff.oneAssign)
  else
    match cons v with
    | .ok a => (⟨.live a, true⟩, .ok (), Eff.oneConstruct)
    | .error e => (o, .thrown e, Eff.oneConstruct)

/-- Fallible `operator=(const Opt& other)`: same structure as `assignCopy`,
with T's copy constructor / copy assignment possibly failing. -/
def assignCopyE [Inhabited α] (cons : α → Except ε α) (asn : α → α → Except ε α)
    (o other : Opt α) : Opt α × COutcome ε Unit × Eff :=
  if other.hasValue then
    if o.hasValue then
      match asn o.value.read other.value.read with
      | .ok a => (⟨.live a, true⟩, .ok (), Eff.oneAssign)
      | .error e => (⟨.live o.value.read, o.hasValue⟩, .thrown e, Eff.oneAssign)
    else
      match cons other.value.read with
      | .ok a => (⟨.live a, true⟩, .ok (), Eff.oneConstruct)
      | .error e => (o, .thrown e, Eff.oneConstruct)
  else
    ((Destroy o).1, .ok (), (Destroy o).2)

/-- Fallible `operator=(Opt&& other)`: not `noexcept`, so a failure from T's
move assignment / move construction propagates; on failure
`other.Destroy()` is never reached, so the source stays live. -/
def assignMoveE [Inhabited α] (mcons : α → Except ε α) (masn : α → α → Except ε α)
    (o other : Opt α) : Opt α × Opt α × COutcome ε Unit × Eff :=
  if other.hasValue then
    if o.hasValue then
      match masn o.value.read other.value.read with
      | .ok a => (⟨.live a, true⟩, (Destroy other).1, .ok (), Eff.oneAssign)
      | .error e => (⟨.live o.value.read, o.hasValue⟩, other, .thrown e, Eff.oneAssign)
    else
      match mcons other.value.read with
      | .ok a => (⟨.live a, true⟩, (Destroy other).1, .ok (), Eff.oneConstruct)
      | .error e => (o, other, .thrown e, Eff.oneConstruct)
  else
    ((Destroy o).1, other, .ok (), (Destroy o).2)

/-- Fallible `operator=(NullOpt)` = `Destroy()`: `value.~T()` then
`hasValue = false`.  The member is not `noexcept`, so a throwing T
destructor propagates unchanged to the caller (the flag-clearing line is
then skipped). -/
def assignNullE [Inhabited α] (dtorT : α → Option ε) (o : Opt α) :
    Opt α × COutcome ε Unit × Eff :=
  if o.hasValue then
    match dtorT o.value.read with
    | Option.none => (⟨.raw, false⟩, .ok (), Eff.oneDestroy)
    | some e => (⟨.raw, o.hasValue⟩, .thrown e, Eff.oneDestroy)
  else
    (o, .ok (), Eff.none)

end Opt

/-! ### Invariant preservation lemmas -/

namespace Opt

variable {α : Type u}

theorem mkDefault_inv : (mkDefault : Opt α).Inv := rfl

theorem mkNull_inv : (mkNull : Opt α).Inv := rfl

theorem fromVal_inv (v : α) : (fromVal v).1.Inv := rfl

theorem Destroy_inv {o : Opt α} (h : o.Inv) : (Destroy o).1.Inv := by
  unfold Destroy
  split <;> simp_all [Inv]

theorem copyCtor_inv [Inhabited α] (other : Opt α) : (copyCtor other).1.Inv := by
  unfold copyCtor
  split <;> simp_all [Inv]

theorem moveCtor_fst_inv [Inhabited α] (other : Opt α) : (moveCtor other).1.Inv := by
  unfold moveCtor
  split <;> simp_all [Inv]

theorem moveCtor_snd_inv [Inhabited α] {other : Opt α} (h : other.Inv) :
    (moveCtor other).2.1.Inv := by
  unfold moveCtor
  split
  · exact Destroy_inv h
  · exact h

theorem assignVal_inv (o : Opt α) (v : α) : (assignVal o v).1.Inv := by
  unfold assignVal
  split <;> rfl

theorem assignCopy_inv [Inhabited α] {o : Opt α} (other : Opt α) (h : o.Inv) :
    (assignCopy o other).1.Inv := by
  unfold assignCopy
  split
  · split <;> rfl
  · exact Destroy_inv h

theorem assignMove_fst_inv [Inhabited α] {o : Opt α} (other : Opt α) (h : o.Inv) :
    (assignMove o other).1.Inv := by
  unfold assignMove
  split
  · split <;> rfl
  · exact Destroy_inv h

theorem assignMove_snd_inv [Inhabited α] (o : Opt α) {other : Opt α} (h : other.Inv) :
    (assignMove o other).2.1.Inv := by
  unfold assignMove
  split
  · split <;> exact Destroy_inv h
  · exact h

theorem dtor_inv {o : Opt α} (h : o.Inv) : (dtor o).1.Inv := Destroy_inv h

end Opt

/-- Reading any index of a world whose containers all satisfy I1 yields a
container satisfying I1 (out of range yields the empty dummy). -/
theorem World.getC_inv {α : Type u} {w : World α} (hw : ∀ o ∈ w, o.Inv) (i : Nat) :
    (w.getC i).Inv := by
  unfold World.getC
  have : w.getD i Opt.mkDefault = (w.get? i).getD Opt.mkDefault := by simp [List.getD]
  rw [this]
  cases h : w.get? i with
  | none => exact Opt.mkDefault_inv
  | some x => exact hw x (List.get?_mem h)

/-- Membership after `setC`: the element was already there or is the one
written. -/
theorem World.mem_setC {α : Type u} {w : World α} {i : Nat} {x o : Opt α}
    (h : o ∈ w.setC i x) : o ∈ w ∨ o = x :=
  List.mem_or_eq_of_mem_set h

/-- One world step preserves invariant I1 for every container. -/
theorem World.step_inv {α : Type u} [Inhabited α] {w : World α}
    (hw : ∀ o ∈ w, o.Inv) (op : WOp α) : ∀ o ∈ w.step op, o.Inv := by
  intro o ho
  cases op with
  | newDefault =>
    rcases List.mem_append.1 ho with h | h
    · exact hw o h
    · simp only [List.mem_singleton] at h; subst h; exact Opt.mkDefault_inv
  | newNull =>
    rcases List.mem_append.1 ho with h | h
    · exact hw o h
    · simp only [List.mem_singleton] at h; subst h; exact Opt.mkNull_inv
  | newFromVal v =>
    rcases List.mem_append.1 ho with h | h
    · exact hw o h
    · simp only [List.mem_singleton] at h; subst h; exact Opt.fromVal_inv v
  | newCopy j =>
    rcases List.mem_append.1 ho with h | h
    · exact hw o h
    · simp only [List.mem_singleton] at h; subst h; exact Opt.copyCtor_inv _
  | newMove j =>
    rcases List.mem_append.1 ho with h | h
    · rcases World.mem_setC h with h2 | h2
      · exact hw o h2
      · subst h2; exact Opt.moveCtor_snd_inv (World.getC_inv hw j)
    · simp only [List.mem_singleton] at h; subst h; exact Opt.moveCtor_fst_inv _
  | assignVal i v =>
    rcases World.mem_setC ho with h | h
    · exact hw o h
    · subst h; exact Opt.assignVal_inv _ v
  | assignCopy i j =>
    rcases World.mem_setC ho with h | h
    · exact hw o h
    · subst h; exact Opt.assignCopy_inv _ (World.getC_inv hw i)
  | assignMove i j =>
    rcases World.mem_setC ho with h | h
    · rcases World.mem_setC h with h2 | h2
      · exact hw o h2
      · subst h2; exact Opt.assignMove_fst_inv _ (World.getC_inv hw i)
    · subst h; exact Opt.assignMove_snd_inv _ (World.getC_inv hw j)
  | assignNull i =>
    rcases World.mem_setC ho with h | h
    · exact hw o h
    · subst h; exact Opt.Destroy_inv (World.getC_inv hw i)
  | assignEmptyList i =>
    rcases World.mem_setC ho with h | h
    · exact hw o h
    · subst h; exact Opt.Destroy_inv (World.getC_inv hw i)
  | destruct i =>
    rcases World.mem_setC ho with h | h
    · exact hw o h
    · subst h; exact Opt.Destroy_inv (World.getC_inv hw i)
  | queryBool i => exact hw o ho
  | readStar i => exact hw o ho
  | readArrow i => exact hw o ho

/-- Running any operation sequence preserves invariant I1 for every
container. -/
theorem World.run_inv {α : Type u} [Inhabited α] {w : World α}
    (hw : ∀ o ∈ w, o.Inv) (ops : List (WOp α)) : ∀ o ∈ w.run ops, o.Inv := by
  induction ops generalizing w with
  | nil => exact hw
  | cons op rest ih => exact ih (World.step_inv hw op)

/-! ### Claim theorems -/

/-- C1: for every type T and every sequence of the container's operations
(construction forms, presence query, access, all assignment forms,
destruction), after each operation the presence flag is true iff the storage
slot holds exactly one live T instance.  Stated over every prefix-closed run:
`ops` ranges over all sequences, so every intermediate world is covered by
some instantiation. -/
theorem c1_presence_invariant {α : Type u} [Inhabited α] (ops : List (WOp α))
    (w : World α) (hw : ∀ o ∈ w, o.Inv) :
    ∀ o ∈ World.run w ops, o.hasValue = o.value.isLive := by
  intro o ho
  exact World.run_inv hw ops o ho

theorem c1_presence_invariant_witness :
    (Opt.mk (Slot.live 5) true).hasValue = (Opt.mk (Slot.live 5) true).value.isLive :=
  c1_presence_invariant [WOp.newFromVal 5, WOp.assignNull 0, WOp.newFromVal 5]
    ([] : World Nat) (by simp) (Opt.mk (Slot.live 5) true) (by decide)

/-- C2: value assignment `operator=(U&&)` on an absent container constructs
a new T from the value and sets the flag (one T construction, no assignment,
no destruction); on a present container it keeps the flag true and performs
exactly one in-place T assignment (no construction, no destruction — in
particular no destroy-then-reconstruct). -/
theorem c2_value_assignment {α : Type u} (o : Opt α) (v : α) :
    (o.hasValue = false →
      Opt.assignVal o v = (Opt.mk (Slot.live v) true, Eff.oneConstruct)) ∧
    (o.hasValue = true →
      Opt.assignVal o v = (Opt.mk (Slot.live v) true, Eff.oneAssign)) := by
  constructor <;> intro h <;> simp [Opt.assignVal, h]

theorem c2_value_assignment_witness :
    Opt.assignVal (Opt.mk (Slot.raw : Slot Nat) false) 7
      = (Opt.mk (Slot.live 7) true, Eff.oneConstruct) ∧
    Opt.assignVal (Opt.mk (Slot.live 3) true) 7
      = (Opt.mk (Slot.live 7) true, Eff.oneAssign) :=
  ⟨(c2_value_assignment _ 7).1 rfl, (c2_value_assignment _ 7).2 rfl⟩

/-- C3: move construction and move assignment from a present source holding
value v leave the destination present with value v and leave the source
empty (its instance destroyed — exactly one T destructor call on the source
slot — and its flag cleared); the value ends up in exactly one container. -/
theorem c3_move_transfers_ownership {α : Type u} [Inhabited α]
    (src dst0 : Opt α) (v : α) (hs : src.hasValue = true)
    (hv : src.value = Slot.live v) :
    Opt.moveCtor src
      = (Opt.mk (Slot.live v) true, Opt.mk Slot.raw false,
         Eff.oneConstruct, Eff.oneDestroy) ∧
    (Opt.assignMove dst0 src).1.hasValue = true ∧
    (Opt.assignMove dst0 src).1.value = Slot.live v ∧
    (Opt.assignMove dst0 src).2.1 = Opt.mk Slot.raw false ∧
    (Opt.assignMove dst0 src).2.2.2 = Eff.oneDestroy := by
  refine ⟨?_, ?_⟩
  · simp [Opt.moveCtor, Opt.Destroy, hs, hv]
  · unfold Opt.assignMove
    simp only [hs, if_true]
    split <;> simp [Opt.Destroy, hs, hv]

theorem c3_move_transfers_ownership_witness :
    Opt.moveCtor (Opt.mk (Slot.live 4) true)
      = (Opt.mk (Slot.live 4) true, Opt.mk (Slot.raw : Slot Nat) false,
         Eff.oneConstruct, Eff.oneDestroy) ∧
    (Opt.assignMove (Opt.mk (Slot.raw : Slot Nat) false)
        (Opt.mk (Slot.live 4) true)).1.hasValue = true :=
  ⟨(c3_move_transfers_ownership (Opt.mk (Slot.live 4) true)
      (Opt.mk Slot.raw false) 4 rfl rfl).1,
   (c3_move_transfers_ownership (Opt.mk (Slot.live 4) true)
      (Opt.mk Slot.raw false) 4 rfl rfl).2.1⟩

/-- Consecutive `operator=(NullOpt)` applications to an absent container do
nothing and call no destructor. -/
theorem Opt.iterNull_absent {α : Type u} {o : Opt α} (h : o.hasValue = false) :
    ∀ n : Nat, Opt.iterNull o n = (o, 0) := by
  intro n
  induction n with
  | zero => rfl
  | succ n ih =>
    have hnull : Opt.assignNull o = (o, Eff.none) := by
      simp [Opt.assignNull, Opt.Destroy, h]
    simp [Opt.iterNull, hnull, ih, Eff.none]

/-- C4: assigning the absent marker or an empty brace-literal list to a
present container destroys the value exactly once and clears the flag;
on an absent container both are no-ops with no destructor call, so any
number of consecutive absent-assignments runs the destructor at most once
(exactly once from a present start, never from an absent start). -/
theorem c4_null_assignment {α : Type u} (o : Opt α) :
    (o.hasValue = true →
      Opt.assignNull o = (Opt.mk Slot.raw false, Eff.oneDestroy) ∧
      Opt.assignEmptyList o = (Opt.mk Slot.raw false, Eff.oneDestroy)) ∧
    (o.hasValue = false →
      Opt.assignNull o = (o, Eff.none) ∧
      Opt.assignEmptyList o = (o, Eff.none)) ∧
    (∀ n : Nat,
      (Opt.iterNull o n).2 = if o.hasValue = true ∧ 0 < n then 1 else 0) := by
  refine ⟨?_, ?_, ?_⟩
  · intro h
    constructor <;> simp [Opt.assignNull, Opt.assignEmptyList, Opt.Destroy, h]
  · intro h
    constructor <;> simp [Opt.assignNull, Opt.assignEmptyList, Opt.Destroy, h]
  · intro n
    cases n with
    | zero => simp [Opt.iterNull]
    | succ n =>
      cases h : o.hasValue with
      | false =>
        rw [Opt.iterNull_absent h]
        simp [h]
      | true =>
        have hnull : Opt.assignNull o = (Opt.mk Slot.raw false, Eff.oneDestroy) := by
          simp [Opt.assignNull, Opt.Destroy, h]
        have habs : (Opt.mk (Slot.raw : Slot α) false).hasValue = false := rfl
        simp [Opt.iterNull, hnull, Opt.iterNull_absent habs, h, Eff.oneDestroy]

theorem c4_null_assignment_witness :
    Opt.assignNull (Opt.mk (Slot.live 2) true)
      = (Opt.mk (Slot.raw : Slot Nat) false, Eff.oneDestroy) ∧
    (Opt.iterNull (Opt.mk (Slot.live 2) true) 3).2 = 1 ∧
    (Opt.iterNull (Opt.mk (Slot.raw : Slot Nat) false) 3).2 = 0 := by
  refine ⟨((c4_null_assignment _).1 rfl).1, ?_, ?_⟩
  · have h := (c4_null_assignment (Opt.mk (Slot.live 2) true)).2.2 3
    simpa using h
  · have h := (c4_null_assignment (Opt.mk (Slot.raw : Slot Nat) false)).2.2 3
    simpa using h

/-- C7: copy construction from a present container holding v yields a second
container present with a value equal to v; the copy lives in its own storage
slot, so subsequently mutating or emptying the original (assignment at
index 0, absent-marker assignment, or destruction) leaves the copy (index 1)
unchanged, and conversely mutating the copy leaves the original unchanged. -/
theorem c7_copy_is_independent {α : Type u} [Inhabited α] (src : Opt α) (v : α)
    (hs : src.hasValue = true) (hv : src.value = Slot.live v) :
    ((Opt.copyCtor src).1.hasValue = true ∧
     (Opt.copyCtor src).1.value = Slot.live v) ∧
    (∀ v2 : α,
      (World.step [src, (Opt.copyCtor src).1] (WOp.assignVal 0 v2)).getC 1
        = (Opt.copyCtor src).1) ∧
    ((World.step [src, (Opt.copyCtor src).1] (WOp.assignNull 0)).getC 1
        = (Opt.copyCtor src).1) ∧
    ((World.step [src, (Opt.copyCtor src).1] (WOp.destruct 0)).getC 1
        = (Opt.copyCtor src).1) ∧
    (∀ v2 : α,
      (World.step [src, (Opt.copyCtor src).1] (WOp.assignVal 1 v2)).getC 0
        = src) := by
  refine ⟨⟨?_, ?_⟩, fun v2 => rfl, rfl, rfl, fun v2 => rfl⟩
  · simp [Opt.copyCtor, hs]
  · simp [Opt.copyCtor, hs, hv]

theorem c7_copy_is_independent_witness :
    ((Opt.copyCtor (Opt.mk (Slot.live 9) true)).1.hasValue = true ∧
     (Opt.copyCtor (Opt.mk (Slot.live 9) true)).1.value = Slot.live 9) ∧
    ((World.step [Opt.mk (Slot.live 9) true,
        (Opt.copyCtor (Opt.mk (Slot.live (9 : Nat)) true)).1]
        (WOp.assignNull 0)).getC 1
      = (Opt.copyCtor (Opt.mk (Slot.live 9) true)).1) :=
  ⟨(c7_copy_is_independent (Opt.mk (Slot.live 9) true) 9 rfl rfl).1,
   (c7_copy_is_independent (Opt.mk (Slot.live 9) true) 9 rfl rfl).2.2.1⟩

/-- C8: on a present container holding v, the mutable access `operator*`
and the member-access forwarding `operator->` both read back v, the
presence query still reports true, and neither access changes any
container state. -/
theorem c8_access_roundtrip {α : Type u} [Inhabited α] (o : Opt α) (v : α)
    (h1 : o.hasValue = true) (hv : o.value = Slot.live v) :
    Opt.star o = v ∧ Opt.arrow o = v ∧ Opt.toBool o = true ∧
    World.step [o] (WOp.readStar 0) = [o] ∧
    World.step [o] (WOp.readArrow 0) = [o] ∧
    World.step [o] (WOp.queryBool 0) = [o] := by
  refine ⟨?_, ?_, h1, rfl, rfl, rfl⟩
  · simp [Opt.star, hv]
  · simp [Opt.arrow, hv]

theorem c8_access_roundtrip_witness :
    Opt.star (Opt.mk (Slot.live 11) true) = 11 ∧
    Opt.arrow (Opt.mk (Slot.live (11 : Nat)) true) = 11 :=
  ⟨(c8_access_roundtrip (Opt.mk (Slot.live 11) true) 11 rfl rfl).1,
   (c8_access_roundtrip (Opt.mk (Slot.live 11) true) 11 rfl rfl).2.1⟩

/-- C9: a default-constructed container and one constructed from the absent
marker are the same absent state, hence behave identically under every
subsequent operation sequence. -/
theorem c9_default_equals_null_construction {α : Type u} [Inhabited α] :
    (Opt.mkDefault : Opt α) = Opt.mkNull ∧
    (Opt.mkDefault : Opt α).hasValue = false ∧
    (Opt.mkNull : Opt α).hasValue = false ∧
    ∀ ops : List (WOp α),
      World.run [(Opt.mkDefault : Opt α)] ops = World.run [Opt.mkNull] ops :=
  ⟨rfl, rfl, rfl, fun _ => rfl⟩

/-- C10: move construction and move assignment from an absent source leave
the source unchanged (still absent) and run no T destructor on it; the
destination of the move construction stays empty, and move assignment from
an absent source just destroys the destination's value (the `Destroy()`
branch). -/
theorem c10_move_from_absent_is_frame {α : Type u} [Inhabited α]
    (o src : Opt α) (hs : src.hasValue = false) :
    Opt.moveCtor src = (Opt.mk Slot.raw false, src, Eff.none, Eff.none) ∧
    (Opt.assignMove o src).2.1 = src ∧
    (Opt.assignMove o src).2.2.2 = Eff.none ∧
    (Opt.assignMove o src).1 = (Opt.Destroy o).1 := by
  refine ⟨?_, ?_, ?_, ?_⟩ <;> simp [Opt.moveCtor, Opt.assignMove, hs]

theorem c10_move_from_absent_is_frame_witness :
    Opt.moveCtor (Opt.mk (Slot.raw : Slot Nat) false)
      = (Opt.mk Slot.raw false, Opt.mk Slot.raw false, Eff.none, Eff.none) ∧
    (Opt.assignMove (Opt.mk (Slot.live 6) true)
        (Opt.mk (Slot.raw : Slot Nat) false)).2.1
      = Opt.mk Slot.raw false :=
  ⟨(c10_move_from_absent_is_frame (Opt.mk Slot.raw false)
      (Opt.mk Slot.raw false) rfl).1,
   (c10_move_from_absent_is_frame (Opt.mk (Slot.live 6) true)
      (Opt.mk Slot.raw false) rfl).2.1⟩

/-- C5: when T's construction or assignment can fail, every container
operation leaves the presence flag consistent with the storage: value
assignment preserves invariant I1 whatever the inner outcome; in particular
a failed construction on an absent container leaves it absent and raw
(`hasValue = true` is sequenced after the placement-new and is never
reached); value construction and copy construction only ever return
containers satisfying I1 (on failure no container object exists at all). -/
theorem c5_failure_keeps_flag_consistent {α : Type u} [Inhabited α] {ε : Type}
    (cons : α → Except ε α) (asn : α → α → Except ε α) (o : Opt α) (v : α) :
    (o.Inv → (Opt.assignValE cons asn o v).1.Inv) ∧
    (o.hasValue = false → ∀ e : ε, cons v = Except.error e →
      Opt.assignValE cons asn o v = (o, COutcome.thrown e, Eff.oneConstruct)) ∧
    (∀ r : Opt α, Opt.fromValE cons v = COutcome.ok r → r.Inv) ∧
    (∀ other : Opt α, ∀ r : Opt α,
      Opt.copyCtorE cons other = COutcome.ok r → r.Inv) := by
  refine ⟨?_, ?_, ?_, ?_⟩
  · intro hInv
    cases h : o.hasValue with
    | true =>
      cases hasn : asn o.value.read v with
      | ok a => simp [Opt.assignValE, h, hasn, Opt.Inv]
      | error e => simp [Opt.assignValE, h, hasn, Opt.Inv]
    | false =>
      cases hc : cons v with
      | ok a => simp [Opt.assignValE, h, hc, Opt.Inv]
      | error e => simpa [Opt.assignValE, h, hc] using hInv
  · intro h e hc
    simp [Opt.assignValE, h, hc]
  · intro r hr
    cases hc : cons v with
    | ok a =>
      simp [Opt.fromValE, hc] at hr
      simp [← hr, Opt.Inv]
    | error e => simp [Opt.fromValE, hc] at hr
  · intro other r hr
    cases h : other.hasValue with
    | true =>
      cases hc : cons other.value.read with
      | ok a =>
        simp [Opt.copyCtorE, h, hc] at hr
        simp [← hr, Opt.Inv, h]
      | error e => simp [Opt.copyCtorE, h, hc] at hr
    | false =>
      simp [Opt.copyCtorE, h] at hr
      simp [← hr, Opt.Inv, h]

theorem c5_failure_keeps_flag_consistent_witness :
    Opt.assignValE (fun _ : Nat => (Except.error () : Except Unit Nat))
        (fun a _ => Except.ok a) Opt.mkDefault 5
      = (Opt.mkDefault, COutcome.thrown (), Eff.oneConstruct) ∧
    (Opt.assignValE (fun _ : Nat => (Except.error () : Except Unit Nat))
        (fun a _ => Except.ok a) Opt.mkDefault 5).1.Inv :=
  ⟨(c5_failure_keeps_flag_consistent (fun _ => Except.error ())
      (fun a _ => Except.ok a) Opt.mkDefault 5).2.1 rfl () rfl,
   (c5_failure_keeps_flag_consistent (fun _ => Except.error ())
      (fun a _ => Except.ok a) Opt.mkDefault 5).1 Opt.mkDefault_inv⟩

/-- C6 counterexample: the move constructor `Opt(Opt&&)` is declared
`noexcept`, so a failure raised by T's move constructor during move-transfer
construction does **not** propagate to the caller — the program terminates —
contradicting the claim that every failure raised by T during any container
operation (including move-transfer construction) propagates unchanged. -/
theorem c6_counterexample_noexcept_move :
    Opt.moveCtorE (fun _ : Nat => (Except.error () : Except Unit Nat))
        (Opt.mk (Slot.live 0) true) = COutcome.terminated ∧
    Opt.moveCtorE (fun _ : Nat => (Except.error () : Except Unit Nat))
        (Opt.mk (Slot.live 0) true) ≠ COutcome.thrown () := by
  constructor
  · rfl
  · decide

/-- C6 amended: no container operation raises a failure of its own, and any
failure raised by T's constructor, assignment operator, or destructor during
a container operation propagates unchanged (neither intercepted, translated,
nor retried — exactly one inner T operation is attempted), **except** during
move-transfer construction, which is declared `noexcept`: there a T
move-constructor failure terminates the program instead of propagating. -/
theorem c6_amended_exception_neutrality {α : Type u} [Inhabited α] {ε : Type}
    (cons : α → Except ε α) (asn : α → α → Except ε α) (dtorT : α → Option ε)
    (o other : Opt α) (v : α) (e : ε) :
    (Opt.fromValE cons v = COutcome.thrown e ↔ cons v = Except.error e) ∧
    (Opt.copyCtorE cons other = COutcome.thrown e ↔
      other.hasValue = true ∧ cons other.value.read = Except.error e) ∧
    ((Opt.assignValE cons asn o v).2.1 = COutcome.thrown e ↔
      (if o.hasValue then asn o.value.read v else cons v) = Except.error e) ∧
    ((Opt.assignValE cons asn o v).2.2
      = if o.hasValue then Eff.oneAssign else Eff.oneConstruct) ∧
    ((Opt.assignCopyE cons asn o other).2.1 = COutcome.thrown e ↔
      other.hasValue = true ∧
      (if o.hasValue then asn o.value.read other.value.read
       else cons other.value.read) = Except.error e) ∧
    ((Opt.assignMoveE cons asn o other).2.2.1 = COutcome.thrown e ↔
      other.hasValue = true ∧
      (if o.hasValue then asn o.value.read other.value.read
       else cons other.value.read) = Except.error e) ∧
    ((Opt.assignNullE dtorT o).2.1 = COutcome.thrown e ↔
      o.hasValue = true ∧ dtorT o.value.read = some e) ∧
    (Opt.moveCtorE cons other ≠ COutcome.thrown e) ∧
    (Opt.moveCtorE cons other = COutcome.terminated ↔
      other.hasValue = true ∧ ∃ e2 : ε, cons other.value.read = Except.error e2) := by
  refine ⟨?_, ?_, ?_, ?_, ?_, ?_, ?_, ?_, ?_⟩
  · cases hc : cons v <;> simp [Opt.fromValE, hc]
  · cases h : other.hasValue <;> [skip; cases hc : cons other.value.read] <;>
      simp [Opt.copyCtorE, h]
    case true.ok a => simp [hc]
    case true.error e2 => simp [hc]
  · cases h : o.hasValue with
    | true => cases hasn : asn o.value.read v <;> simp [Opt.assignValE, h, hasn]
    | false => cases hc : cons v <;> simp [Opt.assignValE, h, hc]
  · cases h : o.hasValue with
    | true => cases hasn : asn o.value.read v <;> simp [Opt.assignValE, h, hasn]
    | false => cases hc : cons v <;> simp [Opt.assignValE, h, hc]
  · cases h2 : other.hasValue with
    | true =>
      cases h1 : o.hasValue with
      | true =>
        cases hasn : asn o.value.read other.value.read <;>
          simp [Opt.assignCopyE, h1, h2, hasn]
      | false =>
        cases hc : cons other.value.read <;>
          simp [Opt.assignCopyE, h1, h2, hc]
    | false => simp [Opt.assignCopyE, h2]
  · cases h2 : other.hasValue with
    | true =>
      cases h1 : o.hasValue with
      | true =>
        cases hasn : asn o.value.read other.value.read <;>
          simp [Opt.assignMoveE, h1, h2, hasn]
      | false =>
        cases hc : cons other.value.read <;>
          simp [Opt.assignMoveE, h1, h2, hc]
    | false => simp [Opt.assignMoveE, h2]
  · cases h : o.hasValue with
    | true => cases hd : dtorT o.value.read <;> simp [Opt.assignNullE, h, hd]
    | false => simp [Opt.assignNullE, h]
  · cases h : other.hasValue with
    | true => cases hc : cons other.value.read <;> simp [Opt.moveCtorE, h, hc]
    | false => simp [Opt.moveCtorE, h]
  · cases h : other.hasValue with
    | true => cases hc : cons other.value.read <;> simp [Opt.moveCtorE, h, hc]
    | false => simp [Opt.moveCtorE, h]

theorem c6_amended_exception_neutrality_witness :
    Opt.fromValE (fun _ : Nat => (Except.error () : Except Unit Nat)) 5
      = COutcome.thrown () ∧
    (Opt.assignValE (fun _ : Nat => (Except.error () : Except Unit Nat))
        (fun a _ => Except.ok a) Opt.mkDefault 5).2.1 = COutcome.thrown () :=
  ⟨(c6_amended_exception_neutrality (fun _ => Except.error ())
      (fun a _ => Except.ok a) (fun _ => Option.none) Opt.mkDefault
      Opt.mkDefault 5 ()).1.mpr rfl,
   (c6_amended_exception_neutrality (fun _ => Except.error ())
      (fun a _ => Except.ok a) (fun _ => Option.none) Opt.mkDefault
      Opt.mkDefault 5 ()).2.2.1.mpr rfl⟩
